import Mathlib

/-!
# k8s-loki-logline-verifier: a shallow embedding of `main.go`

The program lists the namespaces of a cluster, keeps those whose name starts
with a configured text, and for every pod of such a namespace compares the
`total_log_lines` annotation with the number of log lines the Loki backend
reports for the first hour after the pod started.

Go values are embedded as follows.

* A Go `string` is its sequence of bytes, `List Nat` (each element a byte,
  0..255). `len` is `List.length`, `s[:n]` is `List.take` guarded by the
  run-time bounds check, `==` is equality of the byte sequences.
* Go `int` / `int64` are `Int`; where the source can overflow the result is
  reduced to the 64-bit two's-complement range explicitly.
* A Go call that returns `(value, error)` or panics is an `Outcome`.
* The collaborators outside the program (the pod listing of the cluster, the
  URL and HTTP libraries, the body decoder) are scripted inputs.
-/

namespace LoglineVerifier

/-! ## Strings -/

/-- A Go string: its bytes. -/
abbrev GoString := List Nat

/-- The bytes of an ASCII literal. -/
def ascii (s : String) : GoString := s.toList.map Char.toNat

/-! ## Errors, panics and outcomes -/

deriving instance DecidableEq for Except

/-- The two error kinds of `strconv.NumError`. -/
inductive NumErrKind where
  | ErrSyntax
  | ErrRange
  deriving DecidableEq, Repr

/-- The `error` values that reach the program. -/
inductive GoError where
  /-- `*strconv.NumError` returned by `strconv.Atoi` for the given input. -/
  | numError (kind : NumErrKind) (input : GoString)
  /-- `fmt.Errorf("Loki query failed with status code: %d", code)`, line 86. -/
  | lokiStatus (code : Int)
  /-- `fmt.Errorf("no logs found for pod %s", podName)`, line 109. -/
  | noLogs (podName : GoString)
  /-- An error produced by a library call on a collaborator. -/
  | external (description : GoString)
  deriving DecidableEq, Repr

/-- The run-time panics the program can raise. -/
inductive GoPanic where
  /-- Index expression `xs[i]` with `i >= len(xs)`. -/
  | indexOutOfRange (index len : Nat)
  /-- Slice expression `s[:n]` with `n > len(s)`. -/
  | sliceOutOfRange (bound len : Nat)
  /-- Failed single-value type assertion `v.(string)`. -/
  | typeAssertion
  /-- Field access through a nil pointer. -/
  | nilDereference
  deriving DecidableEq, Repr

/-- Result of a Go call of type `(T, error)` that may also panic. -/
inductive Outcome (α : Type) where
  | ok (value : α)
  | error (e : GoError)
  | panic (p : GoPanic)
  deriving DecidableEq, Repr

/-- Index expression `xs[i]` with its bounds check: the element, or the panic. -/
def index {α : Type} (xs : List α) (i : Nat) : Except GoPanic α :=
  match xs.get? i with
  | some a => .ok a
  | none => .error (.indexOutOfRange i xs.length)

/-- Slice expression `s[:n]` with its bounds check: the slice, or the panic. -/
def sliceTo (s : GoString) (n : Nat) : Except GoPanic GoString :=
  if n ≤ s.length then .ok (s.take n) else .error (.sliceOutOfRange n s.length)

/-! ## `strconv` -/

/-- Reduction of an integer to the `int64` range (two's complement). -/
def wrapInt64 (z : Int) : Int := (z + 2 ^ 63) % 2 ^ 64 - 2 ^ 63

/-- The digit loop of `strconv.ParseUint(s, 10, 64)`: `n` is the value read so
far. A byte that is not a decimal digit is a syntax error; a value that does
not fit 64 bits is a range error. -/
def parseUintLoop : List Nat → Nat → Except NumErrKind Nat
  | [], n => .ok n
  | c :: cs, n =>
    if 48 ≤ c ∧ c ≤ 57 then
      if n ≥ 1844674407370955162 then .error .ErrRange
      else
        let n1 := n * 10 + (c - 48)
        if n1 ≥ 2 ^ 64 then .error .ErrRange else parseUintLoop cs n1
    else .error .ErrSyntax

/-- Model of `strconv.Atoi` of the Go standard library on a platform with
64-bit `int`: an optional sign `+` or `-`, then one or more decimal digits,
the value within `[-2^63, 2^63 - 1]`. The library's fast path for short inputs
computes the same function as its `ParseInt(s, 10, 0)` path, which is the one
followed here. -/
def atoi (s : GoString) : Except GoError Int :=
  match s with
  | [] => .error (.numError .ErrSyntax s)
  | c :: rest =>
    let neg : Bool := c == 45
    let digits := if c == 45 ∨ c == 43 then rest else s
    match digits with
    | [] => .error (.numError .ErrSyntax s)
    | _ :: _ =>
      match parseUintLoop digits 0 with
      | .error k => .error (.numError k s)
      | .ok un =>
        if !neg && un ≥ 2 ^ 63 then .error (.numError .ErrRange s)
        else if neg && un > 2 ^ 63 then .error (.numError .ErrRange s)
        else .ok (if neg then -(un : Int) else (un : Int))

/-- The digit loop of `strconv.FormatUint(n, 10)`: digits are produced from the
least significant one and put in front of `acc`. The first argument bounds the
number of iterations. -/
def formatUintLoop : Nat → Nat → List Nat → List Nat
  | 0, _, acc => acc
  | fuel + 1, n, acc =>
    let acc1 := (48 + n % 10) :: acc
    if n / 10 = 0 then acc1 else formatUintLoop fuel (n / 10) acc1

/-- Model of `strconv.FormatUint(n, 10)`. -/
def formatUint (n : Nat) : GoString := formatUintLoop (n + 1) n []

/-- Model of `strconv.FormatInt(i, 10)`: the decimal text of `i`. -/
def formatInt (i : Int) : GoString :=
  if i < 0 then 45 :: formatUint i.natAbs else formatUint i.natAbs

/-! ## Namespace selection (`main.go` lines 201-203) -/

/-- The function `isTargetNamespace`:
`len(namespaceName) >= len(namespacePrefix) &&
 namespaceName[:len(namespacePrefix)] == namespacePrefix`.
The right operand of `&&` is evaluated only when the left one is true. -/
def isTargetNamespace (namespaceName namespacePrefix : GoString) : Except GoPanic Bool :=
  if namespaceName.length ≥ namespacePrefix.length then
    match sliceTo namespaceName namespacePrefix.length with
    | .error p => .error p
    | .ok s => .ok (decide (s = namespacePrefix))
  else .ok false

/-! ## Time (`time.Time`, as far as `getLogLineCount` uses it) -/

/-- An instant: whole seconds since January 1 of year 1, 00:00:00 UTC (the
library keeps them in an `int64`) and the nanoseconds within that second
(`0 <= nsec < 10^9`). The zero value of `time.Time` is `sec = 0, nsec = 0`. -/
structure Time where
  sec : Int
  nsec : Nat
  deriving DecidableEq, Repr

/-- The zero instant, `time.Time{}`. -/
def Time.zero : Time := ⟨0, 0⟩

/-- `time.Hour`, a `Duration` in nanoseconds. -/
def Hour : Int := 3600000000000

/-- Seconds between year 1 and the Unix epoch (`unixToInternal`). -/
def unixToInternal : Int := 62135596800

/-- Nanoseconds since the Unix epoch as an unbounded integer. -/
def Time.nanosSinceEpoch (t : Time) : Int :=
  (t.sec - unixToInternal) * 1000000000 + t.nsec

/-- Method `Time.UnixNano`: `(t.unixSec())*1e9 + int64(t.nsec())`, computed in
`int64` arithmetic, so the result wraps around when it does not fit. -/
def Time.UnixNano (t : Time) : Int := wrapInt64 t.nanosSinceEpoch

/-- Method `Time.Add` for an instant without monotonic clock reading: the
nanoseconds are carried into the seconds, and the seconds saturate at both
bounds of the `int64` range (`addSec`). -/
def Time.Add (t : Time) (d : Int) : Time :=
  let dsec0 := Int.tdiv d 1000000000
  let nsec0 : Int := (t.nsec : Int) + Int.tmod d 1000000000
  let dsec := if nsec0 ≥ 1000000000 then dsec0 + 1 else if nsec0 < 0 then dsec0 - 1 else dsec0
  let nsec := if nsec0 ≥ 1000000000 then nsec0 - 1000000000
    else if nsec0 < 0 then nsec0 + 1000000000 else nsec0
  let sum := wrapInt64 (t.sec + dsec)
  let sec :=
    if decide (sum > t.sec) = decide (dsec > 0) then sum
    else if dsec > 0 then 2 ^ 63 - 1 else -(2 ^ 63 - 1)
  ⟨sec, nsec.toNat⟩

/-! ## The backend response (`LokiQueryRangeResponse`, lines 36-46) -/

/-- A value decoded by `encoding/json` into an `interface{}`. A number is kept
as its literal; in Go it is a `float64`, never a `string`. -/
inductive JsonValue where
  | null
  | bool (b : Bool)
  | number (literal : GoString)
  | str (s : GoString)
  | array (items : List JsonValue)
  | object (fields : List (GoString × JsonValue))

/-- One element of `Data.Result`: `Metric map[string]string` and
`Values [][]interface{}`. -/
structure ResultSeries where
  Metric : List (GoString × GoString)
  Values : List (List JsonValue)

/-- The field `Data` of the response (`Stats` is an empty struct). -/
structure ResponseData where
  ResultType : GoString
  Result : List ResultSeries

/-- The decoded response body. -/
structure LokiQueryRangeResponse where
  Status : GoString
  Data : ResponseData

/-- Type assertion `v.(string)` on an `interface{}` value. -/
def assertString : JsonValue → Except GoPanic GoString
  | .str s => .ok s
  | _ => .error .typeAssertion

/-- Lines 100-109 of `getLogLineCount`, the step that turns the decoded
response into the count:
`strconv.Atoi(lokiResp.Data.Result[0].Values[0][1].(string))` when
`len(lokiResp.Data.Result) > 0`, the error "no logs found" otherwise. -/
def parseLogLineCount (podName : GoString) (lokiResp : LokiQueryRangeResponse) :
    Outcome Int :=
  if lokiResp.Data.Result.length > 0 then
    match index lokiResp.Data.Result 0 with
    | .error p => .panic p
    | .ok series =>
      match index series.Values 0 with
      | .error p => .panic p
      | .ok sample =>
        match index sample 1 with
        | .error p => .panic p
        | .ok value =>
          match assertString value with
          | .error p => .panic p
          | .ok text =>
            match atoi text with
            | .error err => .error err
            | .ok result => .ok result
  else .error (.noLogs podName)

/-! ## The backend request (lines 56-77) -/

/-- The request `getLogLineCount` sends: method, URL without its query part,
the query parameters (`url.Values`, before percent-encoding) and the
`X-Scope-OrgID` header. -/
structure Request where
  method : GoString
  url : GoString
  params : List (GoString × GoString)
  orgID : GoString
  deriving DecidableEq, Repr

/-- `url.Values.Set`: the key gets this single value. -/
def valuesSet (params : List (GoString × GoString)) (key value : GoString) :
    List (GoString × GoString) :=
  params.filter (fun kv => decide (kv.1 ≠ key)) ++ [(key, value)]

/-- `url.Values.Get`: the value of the key, the empty string when absent. -/
def valuesGet (params : List (GoString × GoString)) (key : GoString) : GoString :=
  (params.lookup key).getD []

/-- `fmt.Sprintf` with the format of line 59, the query text. -/
def sprintfQuery (podName : GoString) : GoString :=
  ascii "count_over_time(\x7bpod_name=\"" ++ podName ++ ascii "\"\x7d[1h])"

/-- Lines 56-77: the request built for a pod. -/
def buildRequest (podStartTime : Time) (podName namespaceName lokiAddress : GoString) :
    Request :=
  let startedAt := podStartTime.UnixNano
  let endAt := (podStartTime.Add Hour).UnixNano
  let query := sprintfQuery podName
  let params0 : List (GoString × GoString) := []
  let params1 := valuesSet params0 (ascii "query") query
  let params2 := valuesSet params1 (ascii "start") (formatInt startedAt)
  let params3 := valuesSet params2 (ascii "end") (formatInt endAt)
  let params4 := valuesSet params3 (ascii "step") (ascii "1h")
  ⟨ascii "GET", lokiAddress ++ ascii "/loki/api/v1/query_range", params4, namespaceName⟩

/-! ## The collaborators of one query -/

/-- What reading and decoding the body of a response gives. -/
inductive Body where
  /-- `io.ReadAll` fails. -/
  | readError (err : GoError)
  /-- `json.Unmarshal` fails. -/
  | undecodable (err : GoError)
  /-- `json.Unmarshal` succeeds. -/
  | decoded (lokiResp : LokiQueryRangeResponse)

/-- What `http.DefaultClient.Do` gives. -/
inductive Reply where
  | transportError (err : GoError)
  | response (statusCode : Int) (body : Body)

/-- The library calls of one run of `getLogLineCount`: `url.Parse` and
`http.NewRequest` (`none` when they succeed) and the HTTP round trip. -/
structure Net where
  urlParse : GoString → Option GoError
  newRequest : Request → Option GoError
  roundTrip : Request → Reply

/-- The function `getLogLineCount` (lines 55-110). The second component lists
the requests that were sent to the backend. -/
def getLogLineCount (net : Net) (podStartTime : Time)
    (podName namespaceName lokiAddress : GoString) : Outcome Int × List Request :=
  match net.urlParse (lokiAddress ++ ascii "/loki/api/v1/query_range") with
  | some err => (.error err, [])
  | none =>
    let req := buildRequest podStartTime podName namespaceName lokiAddress
    match net.newRequest req with
    | some err => (.error err, [])
    | none =>
      match net.roundTrip req with
      | .transportError err => (.error err, [req])
      | .response statusCode body =>
        if statusCode ≠ 200 then (.error (.lokiStatus statusCode), [req])
        else
          match body with
          | .readError err => (.error err, [req])
          | .undecodable err => (.error err, [req])
          | .decoded lokiResp => (parseLogLineCount podName lokiResp, [req])

/-! ## The run (`main`, lines 128-199) -/

/-- The struct `Config` (lines 23-27). -/
structure Config where
  KubeconfigPath : GoString
  NamespacePrefix : GoString
  LokiAddress : GoString
  deriving DecidableEq, Repr

/-- The struct `MismatchRecord` (lines 48-53). -/
structure MismatchRecord where
  PodName : GoString
  Namespace : GoString
  TotalLogLines : Int
  LogLineCount : Int
  deriving DecidableEq, Repr

/-- The fields of a pod the program reads: `pod.Name`, `pod.Annotations` (a
map, here its key-value pairs) and `pod.Status.StartTime`, a pointer that is
nil when the pod has reported no start time. -/
structure Pod where
  Name : GoString
  Annotations : List (GoString × GoString)
  StartTime : Option Time

/-- A pod of a listing together with the behaviour of the collaborators while
its log-line count is queried. -/
structure PodEntry where
  pod : Pod
  net : Net

/-- A namespace of the listing: `namespace.Name` and what listing its pods
gives (line 158). -/
structure NamespaceEntry where
  Name : GoString
  pods : Except GoError (List PodEntry)

/-- The lines the run writes with package `log`. -/
inductive LogLine where
  /-- Line 148, fatal. -/
  | failedListNamespaces (err : GoError)
  /-- Line 160, fatal. -/
  | failedListPods (namespaceName : GoString) (err : GoError)
  /-- Line 166. -/
  | failedTotalLogLines (podName namespaceName : GoString) (err : GoError)
  /-- Line 172. -/
  | failedLogLineCount (podName namespaceName : GoString) (err : GoError)
  /-- Line 184. -/
  | mismatch (podName namespaceName : GoString) (totalLogLines logLineCount : Int)
  /-- Line 186. -/
  | matched (podName namespaceName : GoString) (totalLogLines logLineCount : Int)
  /-- Line 192. -/
  | mismatchRecordsHeader
  /-- Line 197. -/
  | noMismatchesFound
  deriving DecidableEq, Repr

/-- The state of a run: the slice `mismatchRecords`, the log written so far
and the records printed on standard output (line 194). -/
structure RunState where
  mismatchRecords : List MismatchRecord
  log : List LogLine
  stdout : List MismatchRecord
  deriving DecidableEq, Repr

/-- How a run, or a part of it, ends; each case carries the state reached. -/
inductive RunResult where
  /-- The code ran to its end. -/
  | completed (st : RunState)
  /-- The call `log.Fatalf` ended the process; the message is the last log line. -/
  | fatal (st : RunState)
  /-- A run-time panic ended the process. -/
  | panicked (p : GoPanic) (st : RunState)
  deriving DecidableEq, Repr

/-- The state a run ended in. -/
def RunResult.state : RunResult → RunState
  | .completed st => st
  | .fatal st => st
  | .panicked _ st => st

/-- The way a run ended, without the state. -/
inductive Exit where
  | completed
  | fatal
  | panicked (p : GoPanic)
  deriving DecidableEq, Repr

/-- The way a run ended. -/
def RunResult.exit : RunResult → Exit
  | .completed _ => .completed
  | .fatal _ => .fatal
  | .panicked p _ => .panicked p

/-- Index expression `m[key]` on a `map[string]string`: the empty string when
the key is absent. -/
def mapIndex (m : List (GoString × GoString)) (key : GoString) : GoString :=
  (m.lookup key).getD []

/-- Lines 164-187, the body of the loop over the pods of a namespace. -/
def processPod (config : Config) (namespaceName : GoString) (st : RunState)
    (entry : PodEntry) : RunResult :=
  match atoi (mapIndex entry.pod.Annotations (ascii "total_log_lines")) with
  | .error err =>
    .completed { st with
      log := st.log ++ [.failedTotalLogLines entry.pod.Name namespaceName err] }
  | .ok totalLogLines =>
    match entry.pod.StartTime with
    | none => .panicked .nilDereference st
    | some startTime =>
      match (getLogLineCount entry.net startTime entry.pod.Name namespaceName
          config.LokiAddress).1 with
      | .panic p => .panicked p st
      | .error err =>
        .completed { st with
          log := st.log ++ [.failedLogLineCount entry.pod.Name namespaceName err] }
      | .ok logLineCount =>
        if totalLogLines ≠ logLineCount then
          let mismatchRecord : MismatchRecord :=
            ⟨entry.pod.Name, namespaceName, totalLogLines, logLineCount⟩
          .completed { st with
            mismatchRecords := st.mismatchRecords ++ [mismatchRecord],
            log := st.log ++
              [.mismatch entry.pod.Name namespaceName totalLogLines logLineCount] }
        else
          .completed { st with
            log := st.log ++
              [.matched entry.pod.Name namespaceName totalLogLines logLineCount] }

/-- Lines 163-188, the loop over the pods of a namespace. -/
def podLoop (config : Config) (namespaceName : GoString) :
    List PodEntry → RunState → RunResult
  | [], st => .completed st
  | entry :: rest, st =>
    match processPod config namespaceName st entry with
    | .completed st1 => podLoop config namespaceName rest st1
    | .fatal st1 => .fatal st1
    | .panicked p st1 => .panicked p st1

/-- Lines 153-189, the loop over the namespaces. -/
def namespaceLoop (config : Config) : List NamespaceEntry → RunState → RunResult
  | [], st => .completed st
  | ns :: rest, st =>
    match isTargetNamespace ns.Name config.NamespacePrefix with
    | .error p => .panicked p st
    | .ok false => namespaceLoop config rest st
    | .ok true =>
      match ns.pods with
      | .error err => .fatal { st with log := st.log ++ [.failedListPods ns.Name err] }
      | .ok items =>
        match podLoop config ns.Name items st with
        | .completed st1 => namespaceLoop config rest st1
        | .fatal st1 => .fatal st1
        | .panicked p st1 => .panicked p st1

/-- Lines 191-198, the final report. -/
def report (st : RunState) : RunState :=
  if st.mismatchRecords.length > 0 then
    { st with
      log := st.log ++ [.mismatchRecordsHeader],
      stdout := st.stdout ++ st.mismatchRecords }
  else { st with log := st.log ++ [.noMismatchesFound] }

/-- Lines 128-130: the namespace text used when the configuration sets none. -/
def withDefaults (config : Config) : Config :=
  if config.NamespacePrefix = [] then
    { config with NamespacePrefix := ascii "logger-ns" }
  else config

/-- The function `main` from line 128 on, for a configuration file that was
read and a cluster client that was built: `namespaces` is what listing the
namespaces gives (line 146). -/
def main (config : Config) (namespaces : Except GoError (List NamespaceEntry)) :
    RunResult :=
  let config := withDefaults config
  match namespaces with
  | .error err => .fatal ⟨[], [.failedListNamespaces err], []⟩
  | .ok items =>
    match namespaceLoop config items ⟨[], [], []⟩ with
    | .completed st => .completed (report st)
    | .fatal st => .fatal st
    | .panicked p st => .panicked p st

/-! ## Definitions used to state the properties -/

/-- The update `s = f(s, c)` of the digit loop: the value of the digits read. -/
def digitsValue (acc : Nat) (ds : List Nat) : Nat :=
  ds.foldl (fun a c => a * 10 + (c - 48)) acc

/-- Nanoseconds of one unit of the backend's duration notation: `s`, `m`, `h`. -/
def unitNanos (u : Nat) : Option Int :=
  if u = 115 then some 1000000000
  else if u = 109 then some 60000000000
  else if u = 104 then some 3600000000000
  else none

/-- Nanoseconds denoted by a duration of the backend's query language written
as a decimal number followed by one unit, such as `1h` or `30s`. -/
def durationNanos (text : GoString) : Option Int :=
  match text.getLast?, text.dropLast with
  | some u, d :: ds =>
    match unitNanos u, parseUintLoop (d :: ds) 0 with
    | some k, .ok n => some (n * k)
    | _, _ => none
  | _, _ => none

/-- The value element of the first sample of the first result series, when the
response has one. -/
def firstSampleValue (lokiResp : LokiQueryRangeResponse) : Option JsonValue :=
  match lokiResp.Data.Result with
  | [] => none
  | series :: _ =>
    match series.Values with
    | [] => none
    | sample :: _ => sample.get? 1

/-- The specification's record of one pod: present when the expected count
and the observed count were both obtained and differ. -/
def specRecord (config : Config) (namespaceName : GoString) (entry : PodEntry) :
    Option MismatchRecord :=
  match atoi (mapIndex entry.pod.Annotations (ascii "total_log_lines")),
      entry.pod.StartTime with
  | .ok expected, some startTime =>
    match (getLogLineCount entry.net startTime entry.pod.Name namespaceName
        config.LokiAddress).1 with
    | .ok observed =>
      if expected ≠ observed then
        some ⟨entry.pod.Name, namespaceName, expected, observed⟩
      else none
    | _ => none
  | _, _ => none

/-- The specification's records of one namespace: those of its pods, in the
order of the listing, when the namespace is a target. -/
def specNamespaceRecords (config : Config) (ns : NamespaceEntry) :
    List MismatchRecord :=
  if isTargetNamespace ns.Name config.NamespacePrefix = .ok true then
    match ns.pods with
    | .ok items => items.filterMap (specRecord config ns.Name)
    | .error _ => []
  else []

/-- The specification's mismatch sequence of a run: namespaces in the order of
their listing, within each the pods in the order of theirs. -/
def specRecords (config : Config) (namespaces : List NamespaceEntry) :
    List MismatchRecord :=
  (namespaces.map (specNamespaceRecords config)).flatten

/-- Both counts of the pod are success-or-failure values: once the expected
count is read, the pod has a start time and the query does not panic. -/
def podAnswers (config : Config) (namespaceName : GoString) (entry : PodEntry) : Bool :=
  match atoi (mapIndex entry.pod.Annotations (ascii "total_log_lines")) with
  | .error _ => true
  | .ok _ =>
    match entry.pod.StartTime with
    | none => false
    | some startTime =>
      match (getLogLineCount entry.net startTime entry.pod.Name namespaceName
          config.LokiAddress).1 with
      | .panic _ => false
      | _ => true

/-- The namespace test does not panic, and when the namespace is a target its
pods can be listed and all of them answer. -/
def namespaceAnswers (config : Config) (ns : NamespaceEntry) : Bool :=
  match isTargetNamespace ns.Name config.NamespacePrefix with
  | .ok true =>
    match ns.pods with
    | .ok items => items.all (podAnswers config ns.Name)
    | .error _ => false
  | .ok false => true
  | .error _ => false

/-- The pod is skipped with a logged error: its annotation is not accepted by
`strconv.Atoi`, or it has a start time and `getLogLineCount` returns an error.
A pod without start time, and a pod whose response makes the response step
panic, are not skipped: the run ends there. -/
def podSkippedWithError (config : Config) (namespaceName : GoString) (entry : PodEntry) : Prop :=
  (∃ err, atoi (mapIndex entry.pod.Annotations (ascii "total_log_lines")) = .error err) ∨
  (∃ startTime err, entry.pod.StartTime = some startTime ∧
    (getLogLineCount entry.net startTime entry.pod.Name namespaceName
      config.LokiAddress).1 = .error err)

/-- Two results agree on what the run reports: the way it ended and the
mismatch records. -/
def sameView (r1 r2 : RunResult) : Prop :=
  r1.exit = r2.exit ∧ r1.state.mismatchRecords = r2.state.mismatchRecords

/-! ## Concrete inputs -/

/-- A decoded response with one series that holds the one sample
`[1700000000, value]`. -/
def singleSeries (value : JsonValue) : LokiQueryRangeResponse :=
  ⟨ascii "success", ⟨ascii "matrix", [⟨[], [[.number (ascii "1700000000"), value]]⟩]⟩⟩

/-- Collaborators that accept every URL and request and answer every request
with status 200 and the given decoded body. -/
def replyingNet (lokiResp : LokiQueryRangeResponse) : Net :=
  ⟨fun _ => none, fun _ => none, fun _ => .response 200 (.decoded lokiResp)⟩

/-- A pod that started at Unix second 1700000000, with the given annotations,
for which the backend answers with the given decoded body. -/
def examplePod (name : String) (annotations : List (GoString × GoString))
    (lokiResp : LokiQueryRangeResponse) : PodEntry :=
  ⟨⟨ascii name, annotations, some ⟨62135596800 + 1700000000, 0⟩⟩, replyingNet lokiResp⟩

/-- A pod annotated `total_log_lines: total` for which the backend reports the
text `observed` as the value of the first sample. -/
def countedPod (name total observed : String) : PodEntry :=
  examplePod name [(ascii "total_log_lines", ascii total)]
    (singleSeries (.str (ascii observed)))

/-- A configuration with the namespace text `logger-ns`. -/
def exampleConfig : Config := ⟨[], ascii "logger-ns", ascii "http://loki:3100"⟩

/-- The end-to-end scenario: three namespaces with one pod each. -/
def scenario : List NamespaceEntry :=
  [⟨ascii "logger-ns-a", .ok [countedPod "pod-a" "10" "10"]⟩,
   ⟨ascii "other", .ok [countedPod "pod-o" "10" "7"]⟩,
   ⟨ascii "logger-ns-b", .ok [countedPod "pod-b" "10" "8"]⟩]

/-! ## Lemmas on `strconv` -/

theorem digitsValue_ge (ds : List Nat) (acc : Nat) : acc ≤ digitsValue acc ds := by
  induction ds generalizing acc with
  | nil => simp [digitsValue]
  | cons c cs ih =>
    have h := ih (acc * 10 + (c - 48))
    simp only [digitsValue, List.foldl_cons] at h ⊢
    omega

theorem parseUintLoop_of_digits (ds : List Nat) (n : Nat)
    (hd : ∀ c ∈ ds, 48 ≤ c ∧ c ≤ 57) (hv : digitsValue n ds < 2 ^ 64) :
    parseUintLoop ds n = .ok (digitsValue n ds) := by
  induction ds generalizing n with
  | nil => simp [parseUintLoop, digitsValue]
  | cons c cs ih =>
    have hc := hd c (List.mem_cons_self c cs)
    have hstep : digitsValue n (c :: cs) = digitsValue (n * 10 + (c - 48)) cs := by
      simp [digitsValue]
    rw [hstep] at hv ⊢
    have hge := digitsValue_ge cs (n * 10 + (c - 48))
    have h1 : ¬ n ≥ 1844674407370955162 := by omega
    have h2 : ¬ n * 10 + (c - 48) ≥ 2 ^ 64 := by omega
    rw [parseUintLoop]
    simp only [hc, and_self, if_true, h1, if_false, h2]
    exact ih _ (fun x hx => hd x (List.mem_cons_of_mem c hx)) hv

theorem formatUintLoop_digits (fuel n : Nat) (acc : List Nat)
    (hacc : ∀ c ∈ acc, 48 ≤ c ∧ c ≤ 57) :
    ∀ c ∈ formatUintLoop fuel n acc, 48 ≤ c ∧ c ≤ 57 := by
  induction fuel generalizing n acc with
  | zero => simpa [formatUintLoop] using hacc
  | succ fuel ih =>
    have hacc1 : ∀ c ∈ (48 + n % 10) :: acc, 48 ≤ c ∧ c ≤ 57 := by
      intro c hc
      rcases List.mem_cons.mp hc with h | h
      · subst h; omega
      · exact hacc c h
    rw [formatUintLoop]
    by_cases h : n / 10 = 0
    · simpa [h] using hacc1
    · simpa [h] using ih (n / 10) _ hacc1

theorem formatUintLoop_value (fuel n : Nat) (acc : List Nat) (hfuel : n < fuel) :
    digitsValue 0 (formatUintLoop fuel n acc) = digitsValue n acc := by
  induction fuel generalizing n acc with
  | zero => omega
  | succ fuel ih =>
    rw [formatUintLoop]
    by_cases h : n / 10 = 0
    · have hn : n % 10 = n := by omega
      simp [h, digitsValue, hn]
    · have hlt : n / 10 < fuel := by omega
      have hn : n / 10 * 10 + n % 10 = n := by omega
      simp only [h, if_false]
      rw [ih (n / 10) _ hlt]
      simp [digitsValue, hn]

theorem formatUint_digits (n : Nat) : ∀ c ∈ formatUint n, 48 ≤ c ∧ c ≤ 57 :=
  formatUintLoop_digits (n + 1) n [] (by simp)

theorem formatUint_value (n : Nat) : digitsValue 0 (formatUint n) = n := by
  have h := formatUintLoop_value (n + 1) n [] (by omega)
  simpa [formatUint, digitsValue] using h

theorem formatUintLoop_ne_nil (fuel n : Nat) (acc : List Nat) (hacc : acc ≠ []) :
    formatUintLoop fuel n acc ≠ [] := by
  induction fuel generalizing n acc with
  | zero => simpa [formatUintLoop] using hacc
  | succ fuel ih =>
    rw [formatUintLoop]
    by_cases h : n / 10 = 0
    · simp [h]
    · simpa [h] using ih (n / 10) _ (List.cons_ne_nil _ _)

theorem formatUint_eq_cons (n : Nat) :
    ∃ c cs, formatUint n = c :: cs ∧ 48 ≤ c ∧ c ≤ 57 := by
  have hne : formatUint n ≠ [] := by
    unfold formatUint
    rw [formatUintLoop]
    by_cases h : n / 10 = 0
    · simp [h]
    · simpa [h] using formatUintLoop_ne_nil n (n / 10) _ (List.cons_ne_nil _ _)
  have hd := formatUint_digits n
  cases hs : formatUint n with
  | nil => exact absurd hs hne
  | cons c cs =>
    rw [hs] at hd
    exact ⟨c, cs, rfl, hd c (List.mem_cons_self c cs)⟩

theorem parseUintLoop_formatUint (n : Nat) (hn : n < 2 ^ 64) :
    parseUintLoop (formatUint n) 0 = .ok n := by
  have h := parseUintLoop_of_digits (formatUint n) 0 (formatUint_digits n)
    (by rw [formatUint_value]; exact hn)
  rw [formatUint_value] at h
  exact h

theorem atoi_formatUint (n : Nat) (hn : n < 2 ^ 63) :
    atoi (formatUint n) = .ok (n : Int) := by
  obtain ⟨c, cs, hs, hc1, hc2⟩ := formatUint_eq_cons n
  have hp := parseUintLoop_formatUint n (by omega)
  rw [hs] at hp
  have h45 : ¬ c = 45 := by omega
  have h43 : ¬ c = 43 := by omega
  rw [hs]
  simp [atoi, h45, h43, hp]
  omega

theorem atoi_neg_formatUint (n : Nat) (hn : n ≤ 2 ^ 63) :
    atoi (45 :: formatUint n) = .ok (-(n : Int)) := by
  obtain ⟨c, cs, hs, _, _⟩ := formatUint_eq_cons n
  have hp := parseUintLoop_formatUint n (by omega)
  rw [hs] at hp
  rw [hs]
  simp [atoi, hp]
  omega

theorem atoi_formatInt (z : Int) (hlo : -2 ^ 63 ≤ z) (hhi : z < 2 ^ 63) :
    atoi (formatInt z) = .ok z := by
  unfold formatInt
  by_cases hz : z < 0
  · have h := atoi_neg_formatUint z.natAbs (by omega)
    have hzz : -((z.natAbs : Nat) : Int) = z := by omega
    simp only [hz, if_true]
    rw [h, hzz]
  · have h := atoi_formatUint z.natAbs (by omega)
    have hzz : ((z.natAbs : Nat) : Int) = z := by omega
    simp only [hz, if_false]
    rw [h, hzz]

theorem atoi_nil : atoi [] = .error (.numError .ErrSyntax []) := rfl

theorem atoi_ok_bounds (s : GoString) (n : Int) (h : atoi s = .ok n) :
    -2 ^ 63 ≤ n ∧ n < 2 ^ 63 ∧ (s.head? ≠ some 45 → 0 ≤ n) := by
  cases s with
  | nil => simp [atoi] at h
  | cons c rest =>
    simp only [atoi] at h
    split at h
    · simp at h
    · split at h
      · simp at h
      · rename_i un hun
        split at h
        · simp at h
        · split at h
          · simp at h
          · rename_i h1 h2
            simp only [Except.ok.injEq] at h
            by_cases hc : c = 45
            · simp [hc] at h h2
              subst h
              simp
              omega
            · simp [hc] at h h1
              subst h
              simp [hc]
              omega

/-! ## Lemmas on the response step -/

theorem parseLogLineCount_cons (podName status resultType : GoString)
    (metric : List (GoString × GoString)) (timestamp : JsonValue) (text : GoString)
    (more : List JsonValue) (later : List (List JsonValue)) (others : List ResultSeries) :
    parseLogLineCount podName
      ⟨status, ⟨resultType, ⟨metric, (timestamp :: .str text :: more) :: later⟩ :: others⟩⟩ =
      match atoi text with
      | .error err => .error err
      | .ok result => .ok result := by
  simp [parseLogLineCount, index, assertString]

theorem parseLogLineCount_ok (podName : GoString) (lokiResp : LokiQueryRangeResponse)
    (n : Int) (h : parseLogLineCount podName lokiResp = .ok n) :
    ∃ text, firstSampleValue lokiResp = some (.str text) ∧ atoi text = .ok n := by
  obtain ⟨status, resultType, result⟩ := lokiResp
  cases result with
  | nil => simp [parseLogLineCount] at h
  | cons series others =>
    obtain ⟨metric, values⟩ := series
    cases values with
    | nil => simp [parseLogLineCount, index] at h
    | cons sample later =>
      cases sample with
      | nil => simp [parseLogLineCount, index] at h
      | cons timestamp more =>
        cases more with
        | nil => simp [parseLogLineCount, index] at h
        | cons value more =>
          cases value with
          | str text =>
            rw [parseLogLineCount_cons] at h
            refine ⟨text, by simp [firstSampleValue], ?_⟩
            cases ha : atoi text with
            | error err => simp [ha] at h
            | ok result => simpa [ha] using h
          | null => simp [parseLogLineCount, index, assertString] at h
          | bool b => simp [parseLogLineCount, index, assertString] at h
          | number literal => simp [parseLogLineCount, index, assertString] at h
          | array items => simp [parseLogLineCount, index, assertString] at h
          | object fields => simp [parseLogLineCount, index, assertString] at h

/-! ## Lemmas on the loops -/

theorem processPod_records (config : Config) (namespaceName : GoString) (st : RunState)
    (entry : PodEntry) :
    (processPod config namespaceName st entry).state.mismatchRecords =
      st.mismatchRecords ++ (specRecord config namespaceName entry).toList := by
  unfold processPod specRecord
  cases atoi (mapIndex entry.pod.Annotations (ascii "total_log_lines")) with
  | error err => simp [RunResult.state]
  | ok totalLogLines =>
    cases entry.pod.StartTime with
    | none => simp [RunResult.state]
    | some startTime =>
      cases hobs : (getLogLineCount entry.net startTime entry.pod.Name namespaceName
          config.LokiAddress).1 with
      | panic p => simp [RunResult.state, hobs]
      | error err => simp [RunResult.state, hobs]
      | ok logLineCount =>
        by_cases hne : totalLogLines = logLineCount
        · simp [RunResult.state, hobs, hne]
        · simp [RunResult.state, hobs, hne]

theorem processPod_completed_of_answers (config : Config) (namespaceName : GoString)
    (st : RunState) (entry : PodEntry) (h : podAnswers config namespaceName entry = true) :
    ∃ st1, processPod config namespaceName st entry = .completed st1 := by
  unfold podAnswers at h
  unfold processPod
  cases hexp : atoi (mapIndex entry.pod.Annotations (ascii "total_log_lines")) with
  | error err => exact ⟨_, rfl⟩
  | ok totalLogLines =>
    rw [hexp] at h
    cases hstart : entry.pod.StartTime with
    | none => simp [hstart] at h
    | some startTime =>
      rw [hstart] at h
      cases hobs : (getLogLineCount entry.net startTime entry.pod.Name namespaceName
          config.LokiAddress).1 with
      | panic p => simp [hobs] at h
      | error err => simp [hobs]
      | ok logLineCount =>
        by_cases hne : totalLogLines = logLineCount
        · simp [hobs, hne]
        · simp [hobs, hne]

theorem podLoop_records (config : Config) (namespaceName : GoString)
    (pods : List PodEntry) (st : RunState) :
    ∃ l, (podLoop config namespaceName pods st).state.mismatchRecords =
        st.mismatchRecords ++ l ∧
      l <+: pods.filterMap (specRecord config namespaceName) ∧
      ((podLoop config namespaceName pods st).exit = .completed →
        l = pods.filterMap (specRecord config namespaceName)) := by
  induction pods generalizing st with
  | nil => exact ⟨[], by simp [podLoop, RunResult.state], by simp, by simp⟩
  | cons entry rest ih =>
    have hrec := processPod_records config namespaceName st entry
    have hcons : (entry :: rest).filterMap (specRecord config namespaceName) =
        (specRecord config namespaceName entry).toList ++
          rest.filterMap (specRecord config namespaceName) := by
      cases hs : specRecord config namespaceName entry <;> simp [List.filterMap_cons, hs]
    rw [podLoop]
    cases hp : processPod config namespaceName st entry with
    | completed st1 =>
      rw [hp] at hrec
      simp only [RunResult.state] at hrec
      obtain ⟨l, h1, h2, h3⟩ := ih st1
      refine ⟨(specRecord config namespaceName entry).toList ++ l, ?_, ?_, ?_⟩
      · simp only [h1, hrec, List.append_assoc]
      · rw [hcons]
        exact (List.prefix_append_right_inj _).mpr h2
      · intro hexit
        rw [hcons, h3 hexit]
    | fatal st1 =>
      rw [hp] at hrec
      simp only [RunResult.state] at hrec
      refine ⟨(specRecord config namespaceName entry).toList, hrec, ?_, ?_⟩
      · rw [hcons]
        exact List.prefix_append _ _
      · intro hexit
        simp [RunResult.exit] at hexit
    | panicked p st1 =>
      rw [hp] at hrec
      simp only [RunResult.state] at hrec
      refine ⟨(specRecord config namespaceName entry).toList, hrec, ?_, ?_⟩
      · rw [hcons]
        exact List.prefix_append _ _
      · intro hexit
        simp [RunResult.exit] at hexit

theorem podLoop_completed_of_answers (config : Config) (namespaceName : GoString)
    (pods : List PodEntry) (st : RunState)
    (h : pods.all (podAnswers config namespaceName) = true) :
    ∃ st1, podLoop config namespaceName pods st = .completed st1 := by
  induction pods generalizing st with
  | nil => exact ⟨st, rfl⟩
  | cons entry rest ih =>
    simp only [List.all_cons, Bool.and_eq_true] at h
    obtain ⟨st1, h1⟩ := processPod_completed_of_answers config namespaceName st entry h.1
    rw [podLoop, h1]
    exact ih st1 h.2

theorem namespaceLoop_records (config : Config) (namespaces : List NamespaceEntry)
    (st : RunState) :
    ∃ l, (namespaceLoop config namespaces st).state.mismatchRecords =
        st.mismatchRecords ++ l ∧
      l <+: specRecords config namespaces ∧
      ((namespaceLoop config namespaces st).exit = .completed →
        l = specRecords config namespaces) := by
  induction namespaces generalizing st with
  | nil =>
    exact ⟨[], by simp [namespaceLoop, RunResult.state], by simp, by simp [specRecords]⟩
  | cons ns rest ih =>
    have hcons : specRecords config (ns :: rest) =
        specNamespaceRecords config ns ++ specRecords config rest := by
      simp [specRecords]
    rw [namespaceLoop]
    cases ht : isTargetNamespace ns.Name config.NamespacePrefix with
    | error p =>
      exact ⟨[], by simp [RunResult.state], List.nil_prefix,
        by simp [RunResult.exit]⟩
    | ok b =>
      cases b with
      | false =>
        have hnil : specNamespaceRecords config ns = [] := by
          simp [specNamespaceRecords, ht]
        simp only [hcons, hnil, List.nil_append]
        exact ih st
      | true =>
        cases hpods : ns.pods with
        | error err =>
          exact ⟨[], by simp [RunResult.state], List.nil_prefix,
            by simp [RunResult.exit]⟩
        | ok items =>
          have hspec : specNamespaceRecords config ns =
              items.filterMap (specRecord config ns.Name) := by
            simp [specNamespaceRecords, ht, hpods]
          obtain ⟨l, h1, h2, h3⟩ := podLoop_records config ns.Name items st
          simp only []
          cases hp : podLoop config ns.Name items st with
          | completed st1 =>
            rw [hp] at h1 h3
            simp only [RunResult.state] at h1
            have hl := h3 (by simp [RunResult.exit])
            obtain ⟨l2, g1, g2, g3⟩ := ih st1
            refine ⟨l ++ l2, ?_, ?_, ?_⟩
            · simp only [g1, h1, List.append_assoc]
            · rw [hcons, hspec, ← hl]
              exact (List.prefix_append_right_inj _).mpr g2
            · intro hexit
              rw [hcons, hspec, ← hl, g3 hexit]
          | fatal st1 =>
            rw [hp] at h1
            simp only [RunResult.state] at h1
            refine ⟨l, h1, ?_, by simp [RunResult.exit]⟩
            rw [hcons, hspec]
            exact h2.trans (List.prefix_append _ _)
          | panicked p st1 =>
            rw [hp] at h1
            simp only [RunResult.state] at h1
            refine ⟨l, h1, ?_, by simp [RunResult.exit]⟩
            rw [hcons, hspec]
            exact h2.trans (List.prefix_append _ _)

theorem namespaceLoop_completed_of_answers (config : Config)
    (namespaces : List NamespaceEntry) (st : RunState)
    (h : namespaces.all (namespaceAnswers config) = true) :
    ∃ st1, namespaceLoop config namespaces st = .completed st1 := by
  induction namespaces generalizing st with
  | nil => exact ⟨st, rfl⟩
  | cons ns rest ih =>
    simp only [List.all_cons, Bool.and_eq_true] at h
    obtain ⟨hns, hrest⟩ := h
    unfold namespaceAnswers at hns
    rw [namespaceLoop]
    cases ht : isTargetNamespace ns.Name config.NamespacePrefix with
    | error p => simp [ht] at hns
    | ok b =>
      cases b with
      | false => exact ih st hrest
      | true =>
        rw [ht] at hns
        cases hpods : ns.pods with
        | error err => simp [hpods] at hns
        | ok items =>
          rw [hpods] at hns
          obtain ⟨st1, h1⟩ := podLoop_completed_of_answers config ns.Name items st hns
          simp only [h1]
          exact ih st1 hrest

theorem processPod_sameView (config : Config) (namespaceName : GoString)
    (st1 st2 : RunState) (entry : PodEntry)
    (h : st1.mismatchRecords = st2.mismatchRecords) :
    sameView (processPod config namespaceName st1 entry)
      (processPod config namespaceName st2 entry) := by
  unfold processPod sameView
  cases atoi (mapIndex entry.pod.Annotations (ascii "total_log_lines")) with
  | error err => simp [RunResult.state, RunResult.exit, h]
  | ok totalLogLines =>
    cases entry.pod.StartTime with
    | none => simp [RunResult.state, RunResult.exit, h]
    | some startTime =>
      cases hobs : (getLogLineCount entry.net startTime entry.pod.Name namespaceName
          config.LokiAddress).1 with
      | panic p => simp [RunResult.state, RunResult.exit, hobs, h]
      | error err => simp [RunResult.state, RunResult.exit, hobs, h]
      | ok logLineCount =>
        by_cases hne : totalLogLines = logLineCount
        · simp [RunResult.state, RunResult.exit, hobs, hne, h]
        · simp [RunResult.state, RunResult.exit, hobs, hne, h]

theorem sameView_cases (r1 r2 : RunResult) (h : sameView r1 r2) :
    (∃ a b, r1 = .completed a ∧ r2 = .completed b ∧
        a.mismatchRecords = b.mismatchRecords) ∨
      (∃ a b, r1 = .fatal a ∧ r2 = .fatal b ∧ a.mismatchRecords = b.mismatchRecords) ∨
      (∃ p a b, r1 = .panicked p a ∧ r2 = .panicked p b ∧
        a.mismatchRecords = b.mismatchRecords) := by
  obtain ⟨he, hr⟩ := h
  cases r1 with
  | completed a =>
    cases r2 with
    | completed b => exact Or.inl ⟨a, b, rfl, rfl, hr⟩
    | fatal b => simp [RunResult.exit] at he
    | panicked q b => simp [RunResult.exit] at he
  | fatal a =>
    cases r2 with
    | completed b => simp [RunResult.exit] at he
    | fatal b => exact Or.inr (Or.inl ⟨a, b, rfl, rfl, hr⟩)
    | panicked q b => simp [RunResult.exit] at he
  | panicked p a =>
    cases r2 with
    | completed b => simp [RunResult.exit] at he
    | fatal b => simp [RunResult.exit] at he
    | panicked q b =>
      simp only [RunResult.exit, Exit.panicked.injEq] at he
      subst he
      exact Or.inr (Or.inr ⟨p, a, b, rfl, rfl, hr⟩)

theorem podLoop_sameView (config : Config) (namespaceName : GoString)
    (pods : List PodEntry) (st1 st2 : RunState)
    (h : st1.mismatchRecords = st2.mismatchRecords) :
    sameView (podLoop config namespaceName pods st1)
      (podLoop config namespaceName pods st2) := by
  induction pods generalizing st1 st2 with
  | nil => exact ⟨rfl, h⟩
  | cons entry rest ih =>
    have hp := sameView_cases _ _ (processPod_sameView config namespaceName st1 st2 entry h)
    rw [podLoop, podLoop]
    rcases hp with ⟨a, b, h1, h2, hab⟩ | ⟨a, b, h1, h2, hab⟩ | ⟨p, a, b, h1, h2, hab⟩
    · rw [h1, h2]
      exact ih a b hab
    · rw [h1, h2]
      exact ⟨rfl, hab⟩
    · rw [h1, h2]
      exact ⟨rfl, hab⟩

theorem namespaceLoop_sameView (config : Config) (namespaces : List NamespaceEntry)
    (st1 st2 : RunState) (h : st1.mismatchRecords = st2.mismatchRecords) :
    sameView (namespaceLoop config namespaces st1)
      (namespaceLoop config namespaces st2) := by
  induction namespaces generalizing st1 st2 with
  | nil => exact ⟨rfl, h⟩
  | cons ns rest ih =>
    rw [namespaceLoop, namespaceLoop]
    cases isTargetNamespace ns.Name config.NamespacePrefix with
    | error p => exact ⟨rfl, h⟩
    | ok b =>
      cases b with
      | false => exact ih st1 st2 h
      | true =>
        cases ns.pods with
        | error err => exact ⟨rfl, h⟩
        | ok items =>
          have hp := sameView_cases _ _ (podLoop_sameView config ns.Name items st1 st2 h)
          rcases hp with ⟨a, b, h1, h2, hab⟩ | ⟨a, b, h1, h2, hab⟩ | ⟨p, a, b, h1, h2, hab⟩
          · simp only [h1, h2]
            exact ih a b hab
          · simp only [h1, h2]
            exact ⟨rfl, hab⟩
          · simp only [h1, h2]
            exact ⟨rfl, hab⟩

theorem podLoop_append (config : Config) (namespaceName : GoString)
    (front back : List PodEntry) (st : RunState) :
    podLoop config namespaceName (front ++ back) st =
      match podLoop config namespaceName front st with
      | .completed st1 => podLoop config namespaceName back st1
      | .fatal st1 => .fatal st1
      | .panicked p st1 => .panicked p st1 := by
  induction front generalizing st with
  | nil => simp [podLoop]
  | cons entry rest ih =>
    rw [List.cons_append, podLoop, podLoop]
    cases processPod config namespaceName st entry with
    | completed st1 => exact ih st1
    | fatal st1 => rfl
    | panicked p st1 => rfl

theorem namespaceLoop_append (config : Config) (front back : List NamespaceEntry)
    (st : RunState) :
    namespaceLoop config (front ++ back) st =
      match namespaceLoop config front st with
      | .completed st1 => namespaceLoop config back st1
      | .fatal st1 => .fatal st1
      | .panicked p st1 => .panicked p st1 := by
  induction front generalizing st with
  | nil => simp [namespaceLoop]
  | cons ns rest ih =>
    rw [List.cons_append, namespaceLoop, namespaceLoop]
    cases isTargetNamespace ns.Name config.NamespacePrefix with
    | error p => rfl
    | ok b =>
      cases b with
      | false => exact ih st
      | true =>
        cases ns.pods with
        | error err => rfl
        | ok items =>
          dsimp only []
          cases podLoop config ns.Name items st with
          | completed st1 => exact ih st1
          | fatal st1 => rfl
          | panicked p st1 => rfl

theorem processPod_of_fails (config : Config) (namespaceName : GoString) (st : RunState)
    (entry : PodEntry) (h : podSkippedWithError config namespaceName entry) :
    ∃ st1, processPod config namespaceName st entry = .completed st1 ∧
      st1.mismatchRecords = st.mismatchRecords := by
  unfold processPod
  rcases h with ⟨err, herr⟩ | ⟨startTime, err, hstart, herr⟩
  · simp [herr]
  · cases hexp : atoi (mapIndex entry.pod.Annotations (ascii "total_log_lines")) with
    | error e => simp
    | ok totalLogLines => simp [hstart, herr]

theorem podLoop_remove_failing (config : Config) (namespaceName : GoString)
    (before after : List PodEntry) (entry : PodEntry) (st : RunState)
    (h : podSkippedWithError config namespaceName entry) :
    sameView (podLoop config namespaceName (before ++ entry :: after) st)
      (podLoop config namespaceName (before ++ after) st) := by
  rw [podLoop_append, podLoop_append]
  cases podLoop config namespaceName before st with
  | completed st1 =>
    obtain ⟨st2, h1, h2⟩ := processPod_of_fails config namespaceName st1 entry h
    simp only []
    rw [podLoop, h1]
    exact podLoop_sameView config namespaceName after st2 st1 h2
  | fatal st1 => exact ⟨rfl, rfl⟩
  | panicked p st1 => exact ⟨rfl, rfl⟩

theorem namespaceLoop_remove_failing (config : Config) (nsName : GoString)
    (nsBefore nsAfter : List NamespaceEntry) (before after : List PodEntry)
    (entry : PodEntry) (st : RunState) (h : podSkippedWithError config nsName entry) :
    sameView
      (namespaceLoop config
        (nsBefore ++ ⟨nsName, .ok (before ++ entry :: after)⟩ :: nsAfter) st)
      (namespaceLoop config
        (nsBefore ++ ⟨nsName, .ok (before ++ after)⟩ :: nsAfter) st) := by
  rw [namespaceLoop_append, namespaceLoop_append]
  cases namespaceLoop config nsBefore st with
  | fatal st1 => exact ⟨rfl, rfl⟩
  | panicked p st1 => exact ⟨rfl, rfl⟩
  | completed st1 =>
    simp only []
    rw [namespaceLoop, namespaceLoop]
    cases isTargetNamespace nsName config.NamespacePrefix with
    | error p => exact ⟨rfl, rfl⟩
    | ok b =>
      cases b with
      | false => exact ⟨rfl, rfl⟩
      | true =>
        simp only []
        have hp := sameView_cases _ _
          (podLoop_remove_failing config nsName before after entry st1 h)
        rcases hp with ⟨a, b, h1, h2, hab⟩ | ⟨a, b, h1, h2, hab⟩ | ⟨p, a, b, h1, h2, hab⟩
        · simp only [h1, h2]
          exact namespaceLoop_sameView config nsAfter a b hab
        · simp only [h1, h2]
          exact ⟨rfl, hab⟩
        · simp only [h1, h2]
          exact ⟨rfl, hab⟩

theorem main_sameView_of_loop (config : Config) (items1 items2 : List NamespaceEntry)
    (h : sameView (namespaceLoop (withDefaults config) items1 ⟨[], [], []⟩)
      (namespaceLoop (withDefaults config) items2 ⟨[], [], []⟩)) :
    sameView (main config (.ok items1)) (main config (.ok items2)) := by
  have hp := sameView_cases _ _ h
  unfold main
  rcases hp with ⟨a, b, h1, h2, hab⟩ | ⟨a, b, h1, h2, hab⟩ | ⟨p, a, b, h1, h2, hab⟩
  · simp only [h1, h2]
    refine ⟨rfl, ?_⟩
    simp only [RunResult.state, report, hab]
    split <;> rfl
  · simp only [h1, h2]
    exact ⟨rfl, hab⟩
  · simp only [h1, h2]
    exact ⟨rfl, hab⟩

theorem processPod_stdout (config : Config) (namespaceName : GoString) (st : RunState)
    (entry : PodEntry) :
    (processPod config namespaceName st entry).state.stdout = st.stdout := by
  unfold processPod
  cases atoi (mapIndex entry.pod.Annotations (ascii "total_log_lines")) with
  | error err => simp [RunResult.state]
  | ok totalLogLines =>
    cases entry.pod.StartTime with
    | none => simp [RunResult.state]
    | some startTime =>
      cases hobs : (getLogLineCount entry.net startTime entry.pod.Name namespaceName
          config.LokiAddress).1 with
      | panic p => simp [RunResult.state, hobs]
      | error err => simp [RunResult.state, hobs]
      | ok logLineCount =>
        by_cases hne : totalLogLines = logLineCount
        · simp [RunResult.state, hobs, hne]
        · simp [RunResult.state, hobs, hne]

theorem podLoop_stdout (config : Config) (namespaceName : GoString)
    (pods : List PodEntry) (st : RunState) :
    (podLoop config namespaceName pods st).state.stdout = st.stdout := by
  induction pods generalizing st with
  | nil => rfl
  | cons entry rest ih =>
    have hp := processPod_stdout config namespaceName st entry
    rw [podLoop]
    cases hr : processPod config namespaceName st entry with
    | completed st1 =>
      rw [hr] at hp
      simp only [RunResult.state] at hp
      rw [← hp]
      exact ih st1
    | fatal st1 => rw [hr] at hp; exact hp
    | panicked p st1 => rw [hr] at hp; exact hp

theorem namespaceLoop_stdout (config : Config) (namespaces : List NamespaceEntry)
    (st : RunState) :
    (namespaceLoop config namespaces st).state.stdout = st.stdout := by
  induction namespaces generalizing st with
  | nil => rfl
  | cons ns rest ih =>
    rw [namespaceLoop]
    cases isTargetNamespace ns.Name config.NamespacePrefix with
    | error p => rfl
    | ok b =>
      cases b with
      | false => exact ih st
      | true =>
        cases ns.pods with
        | error err => rfl
        | ok items =>
          dsimp only []
          have hp := podLoop_stdout config ns.Name items st
          cases hr : podLoop config ns.Name items st with
          | completed st1 =>
            rw [hr] at hp
            simp only [RunResult.state] at hp
            rw [← hp]
            exact ih st1
          | fatal st1 => rw [hr] at hp; exact hp
          | panicked p st1 => rw [hr] at hp; exact hp

theorem specRecord_some (config : Config) (namespaceName : GoString) (entry : PodEntry)
    (r : MismatchRecord) (h : specRecord config namespaceName entry = some r) :
    r.PodName = entry.pod.Name ∧ r.Namespace = namespaceName ∧
      r.TotalLogLines ≠ r.LogLineCount ∧
      atoi (mapIndex entry.pod.Annotations (ascii "total_log_lines")) =
        .ok r.TotalLogLines ∧
      ∃ startTime, entry.pod.StartTime = some startTime ∧
        (getLogLineCount entry.net startTime entry.pod.Name namespaceName
          config.LokiAddress).1 = .ok r.LogLineCount := by
  unfold specRecord at h
  cases hexp : atoi (mapIndex entry.pod.Annotations (ascii "total_log_lines")) with
  | error err => simp [hexp] at h
  | ok totalLogLines =>
    cases hstart : entry.pod.StartTime with
    | none => simp [hexp, hstart] at h
    | some startTime =>
      cases hobs : (getLogLineCount entry.net startTime entry.pod.Name namespaceName
          config.LokiAddress).1 with
      | panic p => simp [hexp, hstart, hobs] at h
      | error err => simp [hexp, hstart, hobs] at h
      | ok logLineCount =>
        by_cases hne : totalLogLines = logLineCount
        · simp [hexp, hstart, hobs, hne] at h
        · simp [hexp, hstart, hobs, hne] at h
          subst h
          exact ⟨rfl, rfl, hne, rfl, startTime, rfl, hobs⟩

theorem specRecords_mem_entry (config : Config) (namespaces : List NamespaceEntry)
    (r : MismatchRecord) (h : r ∈ specRecords config namespaces) :
    ∃ ns ∈ namespaces, ∃ items entry,
      isTargetNamespace ns.Name config.NamespacePrefix = .ok true ∧
      ns.pods = .ok items ∧ entry ∈ items ∧ specRecord config ns.Name entry = some r := by
  simp only [specRecords, List.mem_flatten, List.mem_map] at h
  obtain ⟨l, ⟨ns, hns, hl⟩, hr⟩ := h
  subst hl
  unfold specNamespaceRecords at hr
  by_cases ht : isTargetNamespace ns.Name config.NamespacePrefix = .ok true
  · cases hpods : ns.pods with
    | error err => simp [ht, hpods] at hr
    | ok items =>
      simp only [ht, hpods, if_true, List.mem_filterMap] at hr
      obtain ⟨entry, hentry, hspec⟩ := hr
      exact ⟨ns, hns, items, entry, ht, hpods, hentry, hspec⟩
  · simp [ht] at hr

theorem specRecords_mem (config : Config) (namespaces : List NamespaceEntry)
    (r : MismatchRecord) (h : r ∈ specRecords config namespaces) :
    r.TotalLogLines ≠ r.LogLineCount ∧
      isTargetNamespace r.Namespace config.NamespacePrefix = .ok true := by
  obtain ⟨ns, _, items, entry, ht, _, _, hspec⟩ :=
    specRecords_mem_entry config namespaces r h
  obtain ⟨_, hns, hne, _⟩ := specRecord_some config ns.Name entry r hspec
  rw [hns]
  exact ⟨hne, ht⟩

theorem isTargetNamespace_eq (namespaceName namespacePrefix : GoString) :
    isTargetNamespace namespaceName namespacePrefix =
      .ok (decide (namespacePrefix <+: namespaceName)) := by
  unfold isTargetNamespace sliceTo
  by_cases hlen : namespacePrefix.length ≤ namespaceName.length
  · have hiff : List.take namespacePrefix.length namespaceName = namespacePrefix ↔
        namespacePrefix <+: namespaceName := by
      rw [List.prefix_iff_eq_take]
      exact eq_comm
    simp [hlen, hiff]
  · have hnot : ¬ namespacePrefix <+: namespaceName := fun h => hlen h.length_le
    simp [hlen, hnot]

theorem parseUintLoop_error_of_nondigit (ds : List Nat) (n : Nat)
    (h : ∃ c ∈ ds, c < 48 ∨ 57 < c) : ∃ k, parseUintLoop ds n = .error k := by
  induction ds generalizing n with
  | nil => simp at h
  | cons d rest ih =>
    rw [parseUintLoop]
    by_cases hd : 48 ≤ d ∧ d ≤ 57
    · have hrest : ∃ c ∈ rest, c < 48 ∨ 57 < c := by
        obtain ⟨c, hc, hbad⟩ := h
        rcases List.mem_cons.mp hc with heq | hmem
        · subst heq; omega
        · exact ⟨c, hmem, hbad⟩
      simp only [hd, and_self, if_true]
      by_cases h1 : n ≥ 1844674407370955162
      · exact ⟨.ErrRange, by simp [h1]⟩
      · by_cases h2 : n * 10 + (d - 48) ≥ 2 ^ 64
        · exact ⟨.ErrRange, by simp only [h1, h2, if_true, if_false]⟩
        · simp only [h1, h2, if_false]
          exact ih _ hrest
    · exact ⟨.ErrSyntax, by simp [hd]⟩

theorem atoi_error_of_nondigit (s : GoString)
    (h : s = [] ∨ ∃ c ∈ s.tail, c < 48 ∨ 57 < c) : ∃ err, atoi s = .error err := by
  cases s with
  | nil => exact ⟨_, rfl⟩
  | cons c rest =>
    have hrest : ∃ x ∈ rest, x < 48 ∨ 57 < x := by
      rcases h with h | h
      · simp at h
      · simpa using h
    have hall : ∃ x ∈ c :: rest, x < 48 ∨ 57 < x := by
      obtain ⟨x, hx, hbad⟩ := hrest
      exact ⟨x, List.mem_cons_of_mem c hx, hbad⟩
    have hne : rest ≠ [] := by
      obtain ⟨x, hx, _⟩ := hrest
      exact List.ne_nil_of_mem hx
    obtain ⟨k1, hk1⟩ := parseUintLoop_error_of_nondigit rest 0 hrest
    obtain ⟨k2, hk2⟩ := parseUintLoop_error_of_nondigit (c :: rest) 0 hall
    cases hr : rest with
    | nil => exact absurd hr hne
    | cons r rs =>
      rw [hr] at hk1 hk2
      by_cases hsign : c = 45 ∨ c = 43
      · exact ⟨.numError k1 (c :: r :: rs), by simp [atoi, hsign, hk1]⟩
      · exact ⟨.numError k2 (c :: r :: rs), by simp [atoi, hsign, hk2]⟩

theorem main_records_initial_segment (config : Config) (items : List NamespaceEntry) :
    (main config (.ok items)).state.mismatchRecords <+:
      specRecords (withDefaults config) items := by
  obtain ⟨l, h1, h2, _⟩ := namespaceLoop_records (withDefaults config) items ⟨[], [], []⟩
  simp only [List.nil_append] at h1
  unfold main
  cases hr : namespaceLoop (withDefaults config) items ⟨[], [], []⟩ with
  | completed st =>
    rw [hr] at h1
    simp only [RunResult.state] at h1
    have : (report st).mismatchRecords = st.mismatchRecords := by
      unfold report
      split <;> rfl
    simp only [hr, RunResult.state, this, h1]
    exact h2
  | fatal st =>
    rw [hr] at h1
    simp only [RunResult.state] at h1
    simp only [hr, RunResult.state, h1]
    exact h2
  | panicked p st =>
    rw [hr] at h1
    simp only [RunResult.state] at h1
    simp only [hr, RunResult.state, h1]
    exact h2

/-! ## Lemmas on the request -/

theorem wrapInt64_of_range (z : Int) (hlo : -2 ^ 63 ≤ z) (hhi : z < 2 ^ 63) :
    wrapInt64 z = z := by
  unfold wrapInt64
  omega

theorem add_hour_nanosSinceEpoch (t : Time) (hnsec : t.nsec < 1000000000)
    (hlo : -2 ^ 63 ≤ t.nanosSinceEpoch)
    (hhi : t.nanosSinceEpoch + 3600000000000 < 2 ^ 63) :
    (t.Add Hour).nanosSinceEpoch = t.nanosSinceEpoch + 3600000000000 := by
  unfold Time.nanosSinceEpoch unixToInternal at hlo hhi
  have hdiv : Int.tdiv Hour 1000000000 = 3600 := by decide
  have hmod : Int.tmod Hour 1000000000 = 0 := by decide
  have h1 : ¬ ((t.nsec : Int) + 0 ≥ 1000000000) := by omega
  have h2 : ¬ ((t.nsec : Int) + 0 < 0) := by omega
  have hwrap : wrapInt64 (t.sec + 3600) = t.sec + 3600 :=
    wrapInt64_of_range _ (by omega) (by omega)
  have hgt : t.sec + 3600 > t.sec := by omega
  unfold Time.Add
  simp only [hdiv, hmod, h1, h2, if_false, hwrap, hgt, decide_True]
  simp only [Time.nanosSinceEpoch, unixToInternal]
  have hz : (((t.nsec : Int) + 0).toNat : Int) = (t.nsec : Int) := by omega
  simp only [show ((3600 : Int) > 0) = True from by simp, decide_True, if_true, hz]
  omega

theorem buildRequest_params (podStartTime : Time)
    (podName namespaceName lokiAddress : GoString) :
    (buildRequest podStartTime podName namespaceName lokiAddress).params =
      [(ascii "query", sprintfQuery podName),
        (ascii "start", formatInt podStartTime.UnixNano),
        (ascii "end", formatInt (podStartTime.Add Hour).UnixNano),
        (ascii "step", ascii "1h")] := by
  rfl

theorem getLogLineCount_sent (net : Net) (podStartTime : Time)
    (podName namespaceName lokiAddress : GoString) :
    (getLogLineCount net podStartTime podName namespaceName lokiAddress).2 = [] ∨
      (getLogLineCount net podStartTime podName namespaceName lokiAddress).2 =
        [buildRequest podStartTime podName namespaceName lokiAddress] := by
  unfold getLogLineCount
  cases net.urlParse (lokiAddress ++ ascii "/loki/api/v1/query_range") with
  | some err => exact Or.inl rfl
  | none =>
    dsimp only []
    cases net.newRequest (buildRequest podStartTime podName namespaceName lokiAddress) with
    | some err => exact Or.inl rfl
    | none =>
      dsimp only []
      cases net.roundTrip (buildRequest podStartTime podName namespaceName lokiAddress) with
      | transportError err => exact Or.inr rfl
      | response statusCode body =>
        dsimp only []
        by_cases hcode : statusCode = 200
        · cases body <;> simp [hcode]
        · simp [hcode]

theorem getLogLineCount_of_reply (net : Net) (podStartTime : Time)
    (podName namespaceName lokiAddress : GoString) (lokiResp : LokiQueryRangeResponse)
    (hurl : net.urlParse (lokiAddress ++ ascii "/loki/api/v1/query_range") = none)
    (hreq : net.newRequest
      (buildRequest podStartTime podName namespaceName lokiAddress) = none)
    (hreply : net.roundTrip (buildRequest podStartTime podName namespaceName lokiAddress) =
      .response 200 (.decoded lokiResp)) :
    getLogLineCount net podStartTime podName namespaceName lokiAddress =
      (parseLogLineCount podName lokiResp,
        [buildRequest podStartTime podName namespaceName lokiAddress]) := by
  simp [getLogLineCount, hurl, hreq, hreply]

/-! ## The claims -/

/-- C1: `isTargetNamespace(name, namespacePrefix)` never panics and returns
true exactly when `name` starts with `namespacePrefix`, byte for byte; it
returns true for the empty text and false when the text is longer than the
name. -/
theorem isTargetNamespace_iff_startsWith (namespaceName namespacePrefix : GoString) :
    isTargetNamespace namespaceName namespacePrefix =
        .ok (decide (namespacePrefix <+: namespaceName)) ∧
      (isTargetNamespace namespaceName namespacePrefix = .ok true ↔
        namespacePrefix <+: namespaceName) ∧
      isTargetNamespace namespaceName [] = .ok true ∧
      (namespaceName.length < namespacePrefix.length →
        isTargetNamespace namespaceName namespacePrefix = .ok false) := by
  refine ⟨isTargetNamespace_eq _ _, ?_, ?_, ?_⟩
  · rw [isTargetNamespace_eq]
    simp
  · rw [isTargetNamespace_eq]
    simp
  · intro hlt
    rw [isTargetNamespace_eq]
    have hnot : ¬ namespacePrefix <+: namespaceName := fun h => by
      have := h.length_le
      omega
    simp [hnot]

/-- C1 at concrete names: a longer text than the name gives false, a name that
differs only in the case of a letter is rejected, a matching name accepted. -/
theorem isTargetNamespace_iff_startsWith_witness :
    isTargetNamespace (ascii "log") (ascii "logger-ns") = .ok false ∧
      isTargetNamespace (ascii "Logger-ns-a") (ascii "logger-ns") = .ok false ∧
      isTargetNamespace (ascii "logger-ns-a") (ascii "logger-ns") = .ok true :=
  ⟨(isTargetNamespace_iff_startsWith (ascii "log") (ascii "logger-ns")).2.2.2 (by decide),
    by decide, by decide⟩

/-- C2: when every target namespace can be listed and both counts of each of
its pods are success-or-failure values, the run completes and its
`mismatchRecords` are exactly the specification's sequence: namespaces in
listing order, pods in listing order, one record for each pod of a
target namespace whose counts were both obtained and differ. Every record
has differing counts and a target namespace. -/
theorem main_mismatchRecords_eq_spec (config : Config) (items : List NamespaceEntry)
    (h : items.all (namespaceAnswers (withDefaults config)) = true) :
    ∃ st, main config (.ok items) = .completed st ∧
      st.mismatchRecords = specRecords (withDefaults config) items ∧
      st.stdout = specRecords (withDefaults config) items ∧
      ∀ r ∈ st.mismatchRecords, r.TotalLogLines ≠ r.LogLineCount ∧
        isTargetNamespace r.Namespace (withDefaults config).NamespacePrefix = .ok true := by
  obtain ⟨st1, hst1⟩ :=
    namespaceLoop_completed_of_answers (withDefaults config) items ⟨[], [], []⟩ h
  obtain ⟨l, h1, _, h3⟩ := namespaceLoop_records (withDefaults config) items ⟨[], [], []⟩
  rw [hst1] at h1 h3
  have hl := h3 (by simp [RunResult.exit])
  simp only [RunResult.state, List.nil_append] at h1
  rw [hl] at h1
  have hstd : st1.stdout = [] := by
    have := namespaceLoop_stdout (withDefaults config) items ⟨[], [], []⟩
    rw [hst1] at this
    simpa [RunResult.state] using this
  refine ⟨report st1, ?_, ?_, ?_, ?_⟩
  · simp [main, hst1]
  · unfold report
    split <;> simp [h1]
  · unfold report
    split
    · simp [h1, hstd]
    · rename_i hlen
      simp only [hstd]
      simp only [h1] at hlen
      have : specRecords (withDefaults config) items = [] := by
        cases hs : specRecords (withDefaults config) items with
        | nil => rfl
        | cons a b => simp [hs] at hlen
      rw [this]
  · intro r hr
    have hr1 : r ∈ specRecords (withDefaults config) items := by
      unfold report at hr
      split at hr <;> simpa [h1] using hr
    exact specRecords_mem (withDefaults config) items r hr1

/-- C2 on the end-to-end scenario: namespaces `logger-ns-a`, `other`,
`logger-ns-b`, one pod each with expected count 10 and observed counts 10, 7
and 8, give exactly one record, the pod of `logger-ns-b` with 10 against 8. -/
theorem main_mismatchRecords_eq_spec_witness :
    scenario.all (namespaceAnswers (withDefaults exampleConfig)) = true ∧
      specRecords (withDefaults exampleConfig) scenario =
        [⟨ascii "pod-b", ascii "logger-ns-b", 10, 8⟩] ∧
      ∃ st, main exampleConfig (.ok scenario) = .completed st ∧
        st.mismatchRecords = specRecords (withDefaults exampleConfig) scenario ∧
        st.stdout = specRecords (withDefaults exampleConfig) scenario ∧
        ∀ r ∈ st.mismatchRecords, r.TotalLogLines ≠ r.LogLineCount ∧
          isTargetNamespace r.Namespace (withDefaults exampleConfig).NamespacePrefix =
            .ok true :=
  ⟨by decide, by decide, main_mismatchRecords_eq_spec exampleConfig scenario (by decide)⟩

/-- C3 (the code departs from the claim): the response step panics, instead of
returning a failure, when the first series has no sample, when its first
sample has fewer than two elements, and when the value element is a JSON
number; a run that meets such a response ends in the panic. -/
theorem parseLogLineCount_panics (podName status resultType : GoString)
    (metric : List (GoString × GoString)) (others : List ResultSeries) :
    parseLogLineCount podName ⟨status, ⟨resultType, ⟨metric, []⟩ :: others⟩⟩ =
        .panic (.indexOutOfRange 0 0) ∧
      (∀ later, parseLogLineCount podName
          ⟨status, ⟨resultType, ⟨metric, [] :: later⟩ :: others⟩⟩ =
        .panic (.indexOutOfRange 1 0)) ∧
      (∀ timestamp later, parseLogLineCount podName
          ⟨status, ⟨resultType, ⟨metric, [timestamp] :: later⟩ :: others⟩⟩ =
        .panic (.indexOutOfRange 1 1)) ∧
      (∀ timestamp literal more later, parseLogLineCount podName
          ⟨status, ⟨resultType,
            ⟨metric, (timestamp :: .number literal :: more) :: later⟩ :: others⟩⟩ =
        .panic .typeAssertion) ∧
      main exampleConfig (.ok [⟨ascii "logger-ns-a",
          .ok [examplePod "pod-a" [(ascii "total_log_lines", ascii "42")]
            (singleSeries (.number (ascii "42")))]⟩]) =
        .panicked .typeAssertion ⟨[], [], []⟩ := by
  refine ⟨?_, ?_, ?_, ?_, ?_⟩
  · simp [parseLogLineCount, index]
  · intro later
    simp [parseLogLineCount, index]
  · intro timestamp later
    simp [parseLogLineCount, index]
  · intro timestamp literal more later
    simp [parseLogLineCount, index, assertString]
  · decide

/-- C4, counterexample: a first sample value `"-3"` is parsed to the count -3,
which is negative. -/
theorem parseLogLineCount_negative_counterexample :
    parseLogLineCount (ascii "pod-a") (singleSeries (.str (ascii "-3"))) = .ok (-3) ∧
      ¬ ((0 : Int) ≤ -3) := by
  decide

/-- C4 as amended: when the response step succeeds, its result is the integer
`strconv.Atoi` reads from the string value of the first sample of the first
series; it lies in the `int` range, and it is non-negative whenever that text
does not begin with a minus sign. -/
theorem parseLogLineCount_ok_is_atoi (podName : GoString)
    (lokiResp : LokiQueryRangeResponse) (n : Int)
    (h : parseLogLineCount podName lokiResp = .ok n) :
    ∃ text, firstSampleValue lokiResp = some (.str text) ∧ atoi text = .ok n ∧
      -2 ^ 63 ≤ n ∧ n < 2 ^ 63 ∧ (text.head? ≠ some 45 → 0 ≤ n) := by
  obtain ⟨text, h1, h2⟩ := parseLogLineCount_ok podName lokiResp n h
  exact ⟨text, h1, h2, atoi_ok_bounds text n h2⟩

/-- C4 as amended, at the response whose first sample value is `"42"`. -/
theorem parseLogLineCount_ok_is_atoi_witness :
    parseLogLineCount (ascii "pod-a") (singleSeries (.str (ascii "42"))) = .ok 42 ∧
      ∃ text, firstSampleValue (singleSeries (.str (ascii "42"))) = some (.str text) ∧
        atoi text = .ok 42 ∧ -2 ^ 63 ≤ (42 : Int) ∧ (42 : Int) < 2 ^ 63 ∧
        (text.head? ≠ some 45 → (0 : Int) ≤ 42) :=
  ⟨by decide, parseLogLineCount_ok_is_atoi (ascii "pod-a")
    (singleSeries (.str (ascii "42"))) 42 (by decide)⟩

/-- C5, counterexample: a pod annotated `total_log_lines: "-5"` whose observed
count is 3 yields a record with `TotalLogLines = -5`. -/
theorem main_negative_total_counterexample :
    main exampleConfig (.ok [⟨ascii "logger-ns-a", .ok [countedPod "pod-a" "-5" "3"]⟩]) =
        .completed
          ⟨[⟨ascii "pod-a", ascii "logger-ns-a", -5, 3⟩],
            [.mismatch (ascii "pod-a") (ascii "logger-ns-a") (-5) 3, .mismatchRecordsHeader],
            [⟨ascii "pod-a", ascii "logger-ns-a", -5, 3⟩]⟩ ∧
      ¬ ((0 : Int) ≤ -5) := by
  decide

/-- C5 as amended: a missing annotation reads as the empty text; an empty text
and a text with a byte that is not a digit after its first byte are rejected
by `strconv.Atoi`; a pod whose annotation is rejected is logged and skipped
with `mismatchRecords` unchanged, whatever the backend would answer; and the
`TotalLogLines` of every record of a run is the value `strconv.Atoi` reads
from the annotation of a listed pod, an integer of the `int` range that may be
negative. -/
theorem total_log_lines_rejected_skipped (config : Config) (namespaceName : GoString)
    (st : RunState) (entry : PodEntry) :
    (entry.pod.Annotations.lookup (ascii "total_log_lines") = none →
        mapIndex entry.pod.Annotations (ascii "total_log_lines") = []) ∧
      ((mapIndex entry.pod.Annotations (ascii "total_log_lines") = [] ∨
          ∃ c ∈ (mapIndex entry.pod.Annotations (ascii "total_log_lines")).tail,
            c < 48 ∨ 57 < c) →
        ∃ err, atoi (mapIndex entry.pod.Annotations (ascii "total_log_lines")) =
          .error err) ∧
      (∀ err, atoi (mapIndex entry.pod.Annotations (ascii "total_log_lines")) =
          .error err →
        processPod config namespaceName st entry =
          .completed { st with
            log := st.log ++ [.failedTotalLogLines entry.pod.Name namespaceName err] }) ∧
      (∀ items r, r ∈ (main config (.ok items)).state.mismatchRecords →
        -2 ^ 63 ≤ r.TotalLogLines ∧ r.TotalLogLines < 2 ^ 63 ∧
        ∃ ns ∈ items, ∃ pods e, ns.pods = .ok pods ∧ e ∈ pods ∧
          atoi (mapIndex e.pod.Annotations (ascii "total_log_lines")) =
            .ok r.TotalLogLines) := by
  refine ⟨?_, atoi_error_of_nondigit _, ?_, ?_⟩
  · intro hnone
    simp [mapIndex, hnone]
  · intro err herr
    simp [processPod, herr]
  · intro items r hr
    have hmem := (main_records_initial_segment config items).subset hr
    obtain ⟨ns, hns, pods, e, _, hpods, he, hspec⟩ :=
      specRecords_mem_entry (withDefaults config) items r hmem
    obtain ⟨_, _, _, hatoi, _⟩ := specRecord_some (withDefaults config) ns.Name e r hspec
    obtain ⟨hlo, hhi, _⟩ := atoi_ok_bounds _ _ hatoi
    exact ⟨hlo, hhi, ns, hns, pods, e, hpods, he, hatoi⟩

/-- C5 as amended, at a pod without annotations and at a pod annotated `"12a"`:
both are skipped although the backend would report 8 lines. -/
theorem total_log_lines_rejected_skipped_witness :
    processPod exampleConfig (ascii "logger-ns-a") ⟨[], [], []⟩
        (examplePod "pod-a" [] (singleSeries (.str (ascii "8")))) =
      .completed ⟨[], [.failedTotalLogLines (ascii "pod-a") (ascii "logger-ns-a")
        (.numError .ErrSyntax [])], []⟩ ∧
    processPod exampleConfig (ascii "logger-ns-a") ⟨[], [], []⟩
        (countedPod "pod-a" "12a" "8") =
      .completed ⟨[], [.failedTotalLogLines (ascii "pod-a") (ascii "logger-ns-a")
        (.numError .ErrSyntax (ascii "12a"))], []⟩ :=
  ⟨(total_log_lines_rejected_skipped exampleConfig (ascii "logger-ns-a") ⟨[], [], []⟩
      (examplePod "pod-a" [] (singleSeries (.str (ascii "8"))))).2.2.1 _ (by decide),
    (total_log_lines_rejected_skipped exampleConfig (ascii "logger-ns-a") ⟨[], [], []⟩
      (countedPod "pod-a" "12a" "8")).2.2.1 _ (by decide)⟩

/-- C6, counterexample: for a pod whose start time is the zero instant,
`getLogLineCount` sends one request, with start parameter
`-6795364578871345152`, and returns the count 42 of the reply; the run compares
the pod (10 expected, 8 observed) and records the mismatch instead of
skipping it. -/
theorem getLogLineCount_zero_start_counterexample :
    getLogLineCount (replyingNet (singleSeries (.str (ascii "42")))) Time.zero
        (ascii "pod-a") (ascii "logger-ns-a") (ascii "http://loki:3100") =
      (.ok 42,
        [⟨ascii "GET", ascii "http://loki:3100/loki/api/v1/query_range",
          [(ascii "query", ascii "count_over_time(\x7bpod_name=\"pod-a\"\x7d[1h])"),
            (ascii "start", ascii "-6795364578871345152"),
            (ascii "end", ascii "-6795360978871345152"),
            (ascii "step", ascii "1h")],
          ascii "logger-ns-a"⟩]) ∧
    (main exampleConfig (.ok [⟨ascii "logger-ns-a",
        .ok [⟨⟨ascii "pod-a", [(ascii "total_log_lines", ascii "10")], some Time.zero⟩,
          replyingNet (singleSeries (.str (ascii "8")))⟩]⟩])).state.mismatchRecords =
      [⟨ascii "pod-a", ascii "logger-ns-a", 10, 8⟩] := by
  decide

/-- C6 as amended: `getLogLineCount` has no invalid-window failure. For the zero
start instant, whenever `url.Parse` and `http.NewRequest` succeed it sends
exactly one request, the one built from that instant, and on a reply with
status 200 and a decodable body it returns what the response step returns.
Whenever `getLogLineCount` returns an error for a pod that has a start time,
the run logs the failure, leaves `mismatchRecords` unchanged and goes on. -/
theorem getLogLineCount_zero_start (net : Net) (podName namespaceName lokiAddress : GoString)
    (hurl : net.urlParse (lokiAddress ++ ascii "/loki/api/v1/query_range") = none)
    (hreq : net.newRequest
      (buildRequest Time.zero podName namespaceName lokiAddress) = none) :
    (getLogLineCount net Time.zero podName namespaceName lokiAddress).2 =
        [buildRequest Time.zero podName namespaceName lokiAddress] ∧
      (∀ lokiResp,
        net.roundTrip (buildRequest Time.zero podName namespaceName lokiAddress) =
          .response 200 (.decoded lokiResp) →
        (getLogLineCount net Time.zero podName namespaceName lokiAddress).1 =
          parseLogLineCount podName lokiResp) ∧
      (∀ (config : Config) (st : RunState) (entry : PodEntry) (startTime : Time)
          (total : Int) (err : GoError),
        atoi (mapIndex entry.pod.Annotations (ascii "total_log_lines")) = .ok total →
        entry.pod.StartTime = some startTime →
        (getLogLineCount entry.net startTime entry.pod.Name namespaceName
          config.LokiAddress).1 = .error err →
        processPod config namespaceName st entry =
          .completed { st with
            log := st.log ++ [.failedLogLineCount entry.pod.Name namespaceName err] }) := by
  refine ⟨?_, ?_, ?_⟩
  · unfold getLogLineCount
    simp only [hurl, hreq]
    cases net.roundTrip (buildRequest Time.zero podName namespaceName lokiAddress) with
    | transportError err => rfl
    | response statusCode body =>
      dsimp only []
      by_cases hcode : statusCode = 200
      · cases body <;> simp [hcode]
      · simp [hcode]
  · intro lokiResp hreply
    rw [getLogLineCount_of_reply net Time.zero podName namespaceName lokiAddress lokiResp
      hurl hreq hreply]
  · intro config st entry startTime total err hexp hstart herr
    simp [processPod, hexp, hstart, herr]

/-- C6 as amended, at collaborators that answer with the value `"42"`. -/
theorem getLogLineCount_zero_start_witness :
    (getLogLineCount (replyingNet (singleSeries (.str (ascii "42")))) Time.zero
        (ascii "pod-a") (ascii "logger-ns-a") (ascii "http://loki:3100")).2 =
      [buildRequest Time.zero (ascii "pod-a") (ascii "logger-ns-a")
        (ascii "http://loki:3100")] :=
  (getLogLineCount_zero_start (replyingNet (singleSeries (.str (ascii "42"))))
    (ascii "pod-a") (ascii "logger-ns-a") (ascii "http://loki:3100") rfl rfl).1

/-- C7: a decoded response with an empty result list makes the response step
return the failure "no logs found", never a count; a pod with expected count 0
that gets such a response is logged as a failed query and yields neither a
match line nor a mismatch line nor a record. -/
theorem empty_result_is_failure (config : Config) (namespaceName : GoString)
    (st : RunState) (entry : PodEntry) (startTime : Time)
    (lokiResp : LokiQueryRangeResponse)
    (hres : lokiResp.Data.Result = [])
    (hexp : atoi (mapIndex entry.pod.Annotations (ascii "total_log_lines")) = .ok 0)
    (hstart : entry.pod.StartTime = some startTime)
    (hurl : entry.net.urlParse
      (config.LokiAddress ++ ascii "/loki/api/v1/query_range") = none)
    (hreq : entry.net.newRequest
      (buildRequest startTime entry.pod.Name namespaceName config.LokiAddress) = none)
    (hreply : entry.net.roundTrip
      (buildRequest startTime entry.pod.Name namespaceName config.LokiAddress) =
        .response 200 (.decoded lokiResp)) :
    (∀ podName, parseLogLineCount podName lokiResp = .error (.noLogs podName)) ∧
      (∀ podName, parseLogLineCount podName lokiResp ≠ .ok 0) ∧
      (getLogLineCount entry.net startTime entry.pod.Name namespaceName
        config.LokiAddress).1 = .error (.noLogs entry.pod.Name) ∧
      processPod config namespaceName st entry =
        .completed { st with
          log := st.log ++ [.failedLogLineCount entry.pod.Name namespaceName
            (.noLogs entry.pod.Name)] } := by
  have hparse : ∀ podName, parseLogLineCount podName lokiResp = .error (.noLogs podName) := by
    intro podName
    simp [parseLogLineCount, hres]
  have hget := getLogLineCount_of_reply entry.net startTime entry.pod.Name namespaceName
    config.LokiAddress lokiResp hurl hreq hreply
  refine ⟨hparse, ?_, ?_, ?_⟩
  · intro podName
    rw [hparse]
    simp
  · rw [hget, hparse]
  · simp [processPod, hexp, hstart, hget, hparse]

/-- C7 at a pod annotated `total_log_lines: "0"` whose query is answered with
an empty result list. -/
theorem empty_result_is_failure_witness :
    processPod exampleConfig (ascii "logger-ns-a") ⟨[], [], []⟩
        (examplePod "pod-a" [(ascii "total_log_lines", ascii "0")]
          ⟨ascii "success", ⟨ascii "matrix", []⟩⟩) =
      .completed ⟨[], [.failedLogLineCount (ascii "pod-a") (ascii "logger-ns-a")
        (.noLogs (ascii "pod-a"))], []⟩ :=
  (empty_result_is_failure exampleConfig (ascii "logger-ns-a") ⟨[], [], []⟩
    (examplePod "pod-a" [(ascii "total_log_lines", ascii "0")]
      ⟨ascii "success", ⟨ascii "matrix", []⟩⟩)
    ⟨62135596800 + 1700000000, 0⟩ ⟨ascii "success", ⟨ascii "matrix", []⟩⟩
    rfl (by decide) rfl rfl rfl rfl).2.2.2

/-- C8, counterexample: `9223372036854775808` is the decimal text of the
non-negative integer 2^63, and the response step answers it with a range
error instead of that integer. -/
theorem parseLogLineCount_big_counterexample :
    formatInt 9223372036854775808 = ascii "9223372036854775808" ∧
      parseLogLineCount (ascii "pod-a")
          (singleSeries (.str (ascii "9223372036854775808"))) =
        .error (.numError .ErrRange (ascii "9223372036854775808")) := by
  decide

/-- C8 as amended: for a response whose first series starts with a sample
`[timestamp, value, ...]` where `value` is the decimal text of a non-negative
integer `n` below 2^63, the response step returns exactly `n`, whatever the
status field, the result type, the metric labels, the later samples and the
other series are. -/
theorem parseLogLineCount_decimal (podName status resultType : GoString)
    (metric : List (GoString × GoString)) (timestamp : JsonValue)
    (more : List JsonValue) (later : List (List JsonValue))
    (others : List ResultSeries) (n : Nat) (hn : n < 2 ^ 63) :
    parseLogLineCount podName
      ⟨status, ⟨resultType,
        ⟨metric, (timestamp :: .str (formatInt n) :: more) :: later⟩ :: others⟩⟩ =
      .ok (n : Int) := by
  rw [parseLogLineCount_cons, atoi_formatInt n (by omega) (by omega)]

/-- C8 as amended, at a single series with the value `"42"`. -/
theorem parseLogLineCount_decimal_witness :
    formatInt ((42 : Nat) : Int) = ascii "42" ∧
      parseLogLineCount (ascii "pod-a")
        ⟨ascii "success", ⟨ascii "matrix",
          [⟨[], [[.number (ascii "1700000000"), .str (formatInt ((42 : Nat) : Int))]]⟩]⟩⟩ =
        .ok ((42 : Nat) : Int) :=
  ⟨by decide, parseLogLineCount_decimal (ascii "pod-a") (ascii "success") (ascii "matrix")
    [] (.number (ascii "1700000000")) [] [] [] 42 (by decide)⟩

/-- C9: for a start instant that is representable as `int64` nanoseconds since
the epoch together with the instant one hour later, the request has the
decimal text of the start as its `start` parameter and that of the start plus
3,600,000,000,000 as its `end` parameter, both read back by `strconv.Atoi` as
those numbers; its `step` is `1h` and the range selector of its query is
`[1h]`, a duration of 3,600,000,000,000 nanoseconds, the length of the window;
every request `getLogLineCount` sends is this request. -/
theorem buildRequest_window (net : Net) (podStartTime : Time)
    (podName namespaceName lokiAddress : GoString)
    (hnsec : podStartTime.nsec < 1000000000)
    (hlo : -2 ^ 63 ≤ podStartTime.nanosSinceEpoch)
    (hhi : podStartTime.nanosSinceEpoch + 3600000000000 < 2 ^ 63) :
    valuesGet (buildRequest podStartTime podName namespaceName lokiAddress).params
        (ascii "start") = formatInt podStartTime.nanosSinceEpoch ∧
      valuesGet (buildRequest podStartTime podName namespaceName lokiAddress).params
        (ascii "end") = formatInt (podStartTime.nanosSinceEpoch + 3600000000000) ∧
      atoi (valuesGet (buildRequest podStartTime podName namespaceName lokiAddress).params
        (ascii "start")) = .ok podStartTime.nanosSinceEpoch ∧
      atoi (valuesGet (buildRequest podStartTime podName namespaceName lokiAddress).params
        (ascii "end")) = .ok (podStartTime.nanosSinceEpoch + 3600000000000) ∧
      valuesGet (buildRequest podStartTime podName namespaceName lokiAddress).params
        (ascii "step") = ascii "1h" ∧
      valuesGet (buildRequest podStartTime podName namespaceName lokiAddress).params
        (ascii "query") =
          ascii "count_over_time(\x7bpod_name=\"" ++ podName ++ ascii "\"\x7d[" ++
            ascii "1h" ++ ascii "])" ∧
      durationNanos (ascii "1h") = some 3600000000000 ∧
      (buildRequest podStartTime podName namespaceName lokiAddress).orgID = namespaceName ∧
      ∀ req ∈ (getLogLineCount net podStartTime podName namespaceName lokiAddress).2,
        req = buildRequest podStartTime podName namespaceName lokiAddress := by
  have hstart : podStartTime.UnixNano = podStartTime.nanosSinceEpoch :=
    wrapInt64_of_range _ hlo (by omega)
  have hadd := add_hour_nanosSinceEpoch podStartTime hnsec hlo hhi
  have hend : (podStartTime.Add Hour).UnixNano =
      podStartTime.nanosSinceEpoch + 3600000000000 := by
    unfold Time.UnixNano
    rw [hadd]
    exact wrapInt64_of_range _ (by omega) hhi
  have hs : valuesGet (buildRequest podStartTime podName namespaceName lokiAddress).params
      (ascii "start") = formatInt podStartTime.nanosSinceEpoch := by
    rw [buildRequest_params, ← hstart]
    rfl
  have he : valuesGet (buildRequest podStartTime podName namespaceName lokiAddress).params
      (ascii "end") = formatInt (podStartTime.nanosSinceEpoch + 3600000000000) := by
    rw [buildRequest_params, ← hend]
    rfl
  refine ⟨hs, he, ?_, ?_, ?_, ?_, ?_, rfl, ?_⟩
  · rw [hs]
    exact atoi_formatInt _ hlo (by omega)
  · rw [he]
    exact atoi_formatInt _ (by omega) hhi
  · rw [buildRequest_params]
    rfl
  · rw [buildRequest_params]
    simp [valuesGet, sprintfQuery, ascii]
  · decide
  · intro req hmem
    rcases getLogLineCount_sent net podStartTime podName namespaceName lokiAddress with h | h
    · rw [h] at hmem
      simp at hmem
    · rw [h] at hmem
      simpa using hmem

/-- C9 at the instant 1700000000 seconds and 5 nanoseconds after the epoch. -/
theorem buildRequest_window_witness :
    (buildRequest ⟨62135596800 + 1700000000, 5⟩ (ascii "pod-a") (ascii "logger-ns-a")
        (ascii "http://loki:3100")).params =
      [(ascii "query", ascii "count_over_time(\x7bpod_name=\"pod-a\"\x7d[1h])"),
        (ascii "start", ascii "1700000000000000005"),
        (ascii "end", ascii "1700003600000000005"),
        (ascii "step", ascii "1h")] ∧
      atoi (valuesGet (buildRequest ⟨62135596800 + 1700000000, 5⟩ (ascii "pod-a")
        (ascii "logger-ns-a") (ascii "http://loki:3100")).params (ascii "end")) =
        .ok ((⟨62135596800 + 1700000000, 5⟩ : Time).nanosSinceEpoch + 3600000000000) :=
  ⟨by decide,
    (buildRequest_window (replyingNet (singleSeries (.str (ascii "42"))))
      ⟨62135596800 + 1700000000, 5⟩ (ascii "pod-a") (ascii "logger-ns-a")
      (ascii "http://loki:3100") (by decide) (by decide) (by decide)).2.2.2.1⟩

/-- A pod that the run skips with a logged error (its annotation is rejected
by `strconv.Atoi`, or it has a start time and `getLogLineCount` returns an
error) can be removed from the listing of its namespace without changing the
way the run ends or its `mismatchRecords`. Pods at which the run panics are
not of this kind. -/
theorem main_unaffected_by_skipped_pod (config : Config) (nsName : GoString)
    (nsBefore nsAfter : List NamespaceEntry) (before after : List PodEntry)
    (entry : PodEntry) (h : podSkippedWithError (withDefaults config) nsName entry) :
    (main config
        (.ok (nsBefore ++ ⟨nsName, .ok (before ++ entry :: after)⟩ :: nsAfter))).exit =
      (main config
        (.ok (nsBefore ++ ⟨nsName, .ok (before ++ after)⟩ :: nsAfter))).exit ∧
    (main config
        (.ok (nsBefore ++ ⟨nsName, .ok (before ++ entry :: after)⟩ ::
          nsAfter))).state.mismatchRecords =
      (main config
        (.ok (nsBefore ++ ⟨nsName, .ok (before ++ after)⟩ ::
          nsAfter))).state.mismatchRecords :=
  main_sameView_of_loop config _ _
    (namespaceLoop_remove_failing (withDefaults config) nsName nsBefore nsAfter before
      after entry ⟨[], [], []⟩ h)

/-- C10 (the code departs from the claim): a pod whose query fails can abort
the run and hide the pods after it. In namespace `logger-ns-b`, pod `pod-b`
(10 expected, 8 observed) alone gives the one record of `pod-b`. With a pod
`pod-x` in front of it whose response has a first series without samples, the
run ends in the panic "index out of range" with no record; with a pod `pod-x`
in front of it that has no start time, the run ends in the panic "nil
dereference" with no record. In both runs `pod-b` is never processed. -/
theorem main_aborts_at_failing_pod :
    (main exampleConfig (.ok [⟨ascii "logger-ns-b",
        .ok [countedPod "pod-b" "10" "8"]⟩])) =
      .completed
        ⟨[⟨ascii "pod-b", ascii "logger-ns-b", 10, 8⟩],
          [.mismatch (ascii "pod-b") (ascii "logger-ns-b") 10 8, .mismatchRecordsHeader],
          [⟨ascii "pod-b", ascii "logger-ns-b", 10, 8⟩]⟩ ∧
    (main exampleConfig (.ok [⟨ascii "logger-ns-b",
        .ok [examplePod "pod-x" [(ascii "total_log_lines", ascii "5")]
            ⟨ascii "success", ⟨ascii "matrix", [⟨[], []⟩]⟩⟩,
          countedPod "pod-b" "10" "8"]⟩])) =
      .panicked (.indexOutOfRange 0 0) ⟨[], [], []⟩ ∧
    (main exampleConfig (.ok [⟨ascii "logger-ns-b",
        .ok [⟨⟨ascii "pod-x", [(ascii "total_log_lines", ascii "5")], none⟩,
            replyingNet (singleSeries (.str (ascii "5")))⟩,
          countedPod "pod-b" "10" "8"]⟩])) =
      .panicked .nilDereference ⟨[], [], []⟩ := by
  decide

end LoglineVerifier
